import Mathlib

/-!
# Verification of the Landscape API client core

This file gives a shallow embedding, in Lean, of the request-construction,
signing, parameter-encoding, CSV-parsing and error-taxonomy code of the
Landscape API client (`plugins/module_utils/base.py`), and proves (or
refutes) the behavioural properties stated about it.

Strings are modelled as Lean `String`/`List Char`; byte strings as
`List Nat` (each element `< 256`); Python dictionaries as association
lists with distinct keys, with `dict.update` modelled by an
in-place-replace-or-append operation.  Python exceptions are modelled by
an explicit `Except` result type.
-/

namespace Landscape

/-! ## CSV parsing (`_parse_csv_list_safely`, base.py lines 10209-10235)

The Python generator is a character loop carrying the current item and an
`escaped` flag.  We embed it as a fold over the character list with an
explicit accumulator of already-yielded items.  Note the source resets
`escaped` only in the escaped-comma branch. -/

/-- Loop state of `_parse_csv_list_safely`: the item being built, the
`escaped` flag, and the items yielded so far. -/
structure CsvState where
  item : List Char
  escaped : Bool
  acc : List (List Char)
  deriving Repr, DecidableEq

/-- One iteration of the `for c in value` loop of `_parse_csv_list_safely`. -/
def csvStep (s : CsvState) (c : Char) : CsvState :=
  if c = ',' then
    if s.escaped then
      { s with item := s.item ++ [','], escaped := false }
    else
      { s with acc := s.acc ++ [s.item], item := [] }
  else if c = '\\' then
    { s with escaped := true }
  else
    { s with item := (if s.escaped then s.item ++ ['\\'] else s.item) ++ [c] }

/-- The code after the loop of `_parse_csv_list_safely`: a pending escape
appends a literal backslash, and a non-empty final item is yielded. -/
def csvFinish (s : CsvState) : List (List Char) :=
  let item := if s.escaped then s.item ++ ['\\'] else s.item
  if item = [] then s.acc else s.acc ++ [item]

/-- State reached by the loop of `_parse_csv_list_safely` on input `cs`. -/
def csvRun (cs : List Char) : CsvState :=
  cs.foldl csvStep ⟨[], false, []⟩

/-- `_parse_csv_list_safely` (base.py 10209-10235), on character lists:
yield each comma-separated substring, with `\,` unescaped to a comma. -/
def parseCsvListSafely (cs : List Char) : List (List Char) :=
  csvFinish (csvRun cs)

/-- `_parse_csv_list_safely` on `String`s. -/
def parseCsvList (s : String) : List String :=
  (parseCsvListSafely s.data).map (fun cs => String.mk cs)

/-- The encoding step described by the spec's round-trip property
("an item containing a literal comma is written as `\,`").
Modelled from the spec: escape every comma of one part as `\,`. -/
def escapeCommas (cs : List Char) : List Char :=
  cs.flatMap (fun c => if c = ',' then ['\\', ','] else [c])

/-- Modelled from the spec: join comma-escaped parts with `,`
(the encode side of the spec's round-trip property). -/
def joinCsvEscaped : List (List Char) → List Char
  | [] => []
  | [p] => escapeCommas p
  | p :: ps => escapeCommas p ++ ',' :: joinCsvEscaped ps

/-! ## Python dictionaries

A `str -> str` dictionary is an association list; the code only ever
builds dictionaries with distinct keys.  `dset` models `d[k] = v`
(replace in place if present, else append), `dUpdate` models
`d.update(...)`, `dFind` models `d[k]`/`d.get(k)`. -/

/-- A Python `str -> str` dictionary, as an association list. -/
abbrev Dict := List (String × String)

/-- Lookup of a key (`d.get(k)`). -/
def dFind (d : Dict) (k : String) : Option String :=
  (d.find? (fun kv => kv.1 = k)).map (·.2)

/-- `d[k] = v`: replace the value at `k` in place if present, else append. -/
def dset : Dict → String → String → Dict
  | [], k, v => [(k, v)]
  | kv :: d, k, v => if kv.1 = k then (k, v) :: d else kv :: dset d k v

/-- `d.update(us)`. -/
def dUpdate (d : Dict) (us : List (String × String)) : Dict :=
  us.foldl (fun d kv => dset d kv.1 kv.2) d

/-! ## Percent-encoding (`urllib.parse.quote`)

`quote` percent-encodes the UTF-8 bytes of its argument; a byte is left
as-is exactly when it is an ASCII letter, a digit, one of the
always-safe `_ . - ~`, or in the `safe` set.  `run_query` uses two
variants: `quote(-, safe="~")` for the canonical keys and values
(base.py 9522), and `quote(-)` with the default `safe="/"` — which
leaves `/` unescaped — for the signature (base.py 9530). -/

/-- UTF-8 encoding of one character, as a list of byte values. -/
def utf8Char (c : Char) : List Nat :=
  let n := c.toNat
  if n < 0x80 then [n]
  else if n < 0x800 then [0xC0 + n / 64, 0x80 + n % 64]
  else if n < 0x10000 then
    [0xE0 + n / 4096, 0x80 + (n / 64) % 64, 0x80 + n % 64]
  else
    [0xF0 + n / 262144, 0x80 + (n / 4096) % 64, 0x80 + (n / 64) % 64,
      0x80 + n % 64]

/-- UTF-8 encoding of a string (Python `s.encode("utf-8")`). -/
def utf8 (s : String) : List Nat :=
  s.data.flatMap utf8Char

/-- Bytes left unencoded by `quote(-, safe="~")`: ASCII alphanumerics
and `_ . - ~`. -/
def quoteSafeByte (b : Nat) : Bool :=
  (65 ≤ b && b ≤ 90) || (97 ≤ b && b ≤ 122) || (48 ≤ b && b ≤ 57) ||
    b = 45 || b = 46 || b = 95 || b = 126

/-- One uppercase hexadecimal digit. -/
def hexDigit (n : Nat) : Char :=
  if n < 10 then Char.ofNat (48 + n) else Char.ofNat (55 + n)

/-- Percent-encoding of one byte as `%XX`. -/
def percentByte (b : Nat) : List Char :=
  ['%', hexDigit (b / 16), hexDigit (b % 16)]

/-- `quote(-, safe="~")` on a byte string. -/
def pyQuoteBytes (bs : List Nat) : String :=
  String.mk (bs.flatMap
    (fun b => if quoteSafeByte b then [Char.ofNat b] else percentByte b))

/-- `quote(s, safe="~")` on a text string: encode the UTF-8 bytes. -/
def pyQuote (s : String) : String :=
  pyQuoteBytes (utf8 s)

/-- Bytes left unencoded by `quote` with its default `safe="/"`:
the always-safe bytes plus `/`. -/
def quoteDefaultSafeByte (b : Nat) : Bool :=
  quoteSafeByte b || b = 47

/-- `quote(-)` with the default `safe="/"` on a byte string. -/
def pyQuoteDefaultBytes (bs : List Nat) : String :=
  String.mk (bs.flatMap
    (fun b => if quoteDefaultSafeByte b then [Char.ofNat b] else percentByte b))

/-- `quote(s)` with the default `safe="/"` on a text string: encode the
UTF-8 bytes, leaving `/` (but not `+` or `=`) unescaped. -/
def pyQuoteDefault (s : String) : String :=
  pyQuoteDefaultBytes (utf8 s)

/-! ## URL splitting (`parse`, base.py 9447-9472)

`parse` checks the scheme, strips the URL, and splits it into host, port
and path.  We embed `urlparse`/`urlunparse` for `scheme://netloc...`
URLs: the netloc runs to the first `/`, `?` or `#`; everything after it
(path, query and fragment, exactly as reassembled by
`urlunparse(("", "") + parsed[2:])`) is the path string.  A netloc with
more than one `:` makes `host.split(":")` unpack fail in the source; we
model that crash (and the `SyntaxError` for a bad scheme) as `none`. -/

/-- ASCII lower-casing of one character (enough for URL schemes;
Python's `str.lower` agrees on ASCII). -/
def asciiLower (c : Char) : Char :=
  if 65 ≤ c.toNat && c.toNat ≤ 90 then Char.ofNat (c.toNat + 32) else c

/-- Python whitespace stripped by `str.strip()`. -/
def isPyWs (c : Char) : Bool :=
  c = ' ' || c = '\t' || c = '\n' || c = '\x0d' || c = '\x0b' || c = '\x0c'

/-- `s.strip()`. -/
def pyStrip (cs : List Char) : List Char :=
  ((cs.dropWhile isPyWs).reverse.dropWhile isPyWs).reverse

/-- `s.split(sep)` for a one-character separator (`"".split(sep) = [""]`). -/
def pySplitChar (sep : Char) : List Char → List (List Char)
  | [] => [[]]
  | c :: cs =>
    if c = sep then [] :: pySplitChar sep cs
    else
      match pySplitChar sep cs with
      | h :: t => (c :: h) :: t
      | [] => [[c]]

/-- `int(s)` restricted to plain digit strings, as used for the port
(the source turns `ValueError` into `port = None`). -/
def pyIntOpt (cs : List Char) : Option Nat :=
  if cs ≠ [] && cs.all (·.isDigit) then
    some (cs.foldl (fun n c => 10 * n + (c.toNat - 48)) 0)
  else none

/-- `parse(url)` (base.py 9447-9472): returns `(host, port, path)`.
A bad scheme (`SyntaxError`) and a netloc with more than one `:`
(unpack `ValueError`) are both modelled as `none`. -/
def parseUrl (url : String) : Option (String × Option Nat × String) :=
  let low := url.data.map asciiLower
  if ¬(List.isPrefixOf "http://".data low || List.isPrefixOf "https://".data low)
  then none
  else
    let u := pyStrip url.data
    let rest :=
      if List.isPrefixOf "https://".data (u.map asciiLower) then u.drop 8
      else u.drop 7
    let netloc := rest.takeWhile (fun c => c ≠ '/' && c ≠ '?' && c ≠ '#')
    let path := rest.drop netloc.length
    if netloc.contains ':' then
      match pySplitChar ':' netloc with
      | [h, p] => some (String.mk h, pyIntOpt p, String.mk path)
      | _ => none
    else
      some (String.mk netloc, none, String.mk path)

/-! ## SHA-256, HMAC and base64

`hashlib.sha256` / `hmac.new(key, msg, sha256)` / `base64.b64encode`,
over byte lists, with 32-bit words as `Nat` reduced mod `2 ^ 32`. -/

/-- Right rotation of a 32-bit word. -/
def rotr (k n : Nat) : Nat := n / 2 ^ k + n % 2 ^ k * 2 ^ (32 - k)

/-- Bitwise complement of a 32-bit word. -/
def not32 (n : Nat) : Nat := 0xFFFFFFFF ^^^ n

def sigma0 (x : Nat) : Nat := rotr 7 x ^^^ rotr 18 x ^^^ x / 2 ^ 3
def sigma1 (x : Nat) : Nat := rotr 17 x ^^^ rotr 19 x ^^^ x / 2 ^ 10
def bigSigma0 (x : Nat) : Nat := rotr 2 x ^^^ rotr 13 x ^^^ rotr 22 x
def bigSigma1 (x : Nat) : Nat := rotr 6 x ^^^ rotr 11 x ^^^ rotr 25 x
def chWord (e f g : Nat) : Nat := (e &&& f) ^^^ (not32 e &&& g)
def majWord (a b c : Nat) : Nat := (a &&& b) ^^^ (a &&& c) ^^^ (b &&& c)

/-- The 64 SHA-256 round constants (FIPS 180-4, written in decimal). -/
def sha256K : Array Nat := #[
  1116352408, 1899447441, 3049323471, 3921009573,
  961987163, 1508970993, 2453635748, 2870763221,
  3624381080, 310598401, 607225278, 1426881987,
  1925078388, 2162078206, 2614888103, 3248222580,
  3835390401, 4022224774, 264347078, 604807628,
  770255983, 1249150122, 1555081692, 1996064986,
  2554220882, 2821834349, 2952996808, 3210313671,
  3336571891, 3584528711, 113926993, 338241895,
  666307205, 773529912, 1294757372, 1396182291,
  1695183700, 1986661051, 2177026350, 2456956037,
  2730485921, 2820302411, 3259730800, 3345764771,
  3516065817, 3600352804, 4094571909, 275423344,
  430227734, 506948616, 659060556, 883997877,
  958139571, 1322822218, 1537002063, 1747873779,
  1955562222, 2024104815, 2227730452, 2361852424,
  2428436474, 2756734187, 3204031479, 3329325298]

/-- Big-endian 8-byte encoding of a number (the length field). -/
def be64 (n : Nat) : List Nat :=
  [n / 2 ^ 56 % 256, n / 2 ^ 48 % 256, n / 2 ^ 40 % 256, n / 2 ^ 32 % 256,
    n / 2 ^ 24 % 256, n / 2 ^ 16 % 256, n / 2 ^ 8 % 256, n % 256]

/-- Big-endian 4-byte encoding of a 32-bit word. -/
def be32 (n : Nat) : List Nat :=
  [n / 2 ^ 24 % 256, n / 2 ^ 16 % 256, n / 2 ^ 8 % 256, n % 256]

/-- SHA-256 padding: `0x80`, zeros, then the bit length. -/
def sha256Pad (msg : List Nat) : List Nat :=
  msg ++ [0x80] ++ List.replicate ((119 - msg.length % 64) % 64) 0 ++
    be64 (8 * msg.length)

/-- Split a byte list into 64-byte chunks. -/
def chunks64 (l : List Nat) : List (List Nat) :=
  if l = [] then [] else l.take 64 :: chunks64 (l.drop 64)
  termination_by l.length
  decreasing_by
    have h2 : 0 < l.length := List.length_pos.mpr (by assumption)
    simp only [List.length_drop]
    omega

/-- The 16 initial 32-bit message-schedule words of one chunk. -/
def chunkWords (chunk : List Nat) : Array Nat :=
  (Array.range 16).map (fun i =>
    chunk.getD (4 * i) 0 * 2 ^ 24 + chunk.getD (4 * i + 1) 0 * 2 ^ 16 +
      chunk.getD (4 * i + 2) 0 * 2 ^ 8 + chunk.getD (4 * i + 3) 0)

/-- Extension of the message schedule from 16 to 64 words. -/
def msgSchedule (ws : Array Nat) : Array Nat :=
  (List.range 48).foldl (fun w i =>
    w.push ((sigma1 (w.getD (i + 14) 0) + w.getD (i + 9) 0 +
      sigma0 (w.getD (i + 1) 0) + w.getD i 0) % 2 ^ 32)) ws

/-- The working variables of the SHA-256 compression loop. -/
structure Sha8 where
  a : Nat
  b : Nat
  c : Nat
  d : Nat
  e : Nat
  f : Nat
  g : Nat
  h : Nat

/-- One round of the SHA-256 compression function. -/
def sha256Round (w : Array Nat) (s : Sha8) (i : Nat) : Sha8 :=
  let t1 := (s.h + bigSigma1 s.e + chWord s.e s.f s.g + sha256K.getD i 0 +
    w.getD i 0) % 2 ^ 32
  let t2 := (bigSigma0 s.a + majWord s.a s.b s.c) % 2 ^ 32
  ⟨(t1 + t2) % 2 ^ 32, s.a, s.b, s.c, (s.d + t1) % 2 ^ 32, s.e, s.f, s.g⟩

/-- Compression of one 64-byte chunk into the running hash state. -/
def sha256Chunk (hs : Sha8) (chunk : List Nat) : Sha8 :=
  let w := msgSchedule (chunkWords chunk)
  let s := (List.range 64).foldl (sha256Round w) hs
  ⟨(hs.a + s.a) % 2 ^ 32, (hs.b + s.b) % 2 ^ 32, (hs.c + s.c) % 2 ^ 32,
    (hs.d + s.d) % 2 ^ 32, (hs.e + s.e) % 2 ^ 32, (hs.f + s.f) % 2 ^ 32,
    (hs.g + s.g) % 2 ^ 32, (hs.h + s.h) % 2 ^ 32⟩

/-- The SHA-256 initial hash values. -/
def sha256Init : Sha8 :=
  ⟨1779033703, 3144134277, 1013904242, 2773480762,
    1359893119, 2600822924, 528734635, 1541459225⟩

/-- `hashlib.sha256(msg).digest()` as a list of 32 bytes. -/
def sha256 (msg : List Nat) : List Nat :=
  let s := (chunks64 (sha256Pad msg)).foldl sha256Chunk sha256Init
  be32 s.a ++ be32 s.b ++ be32 s.c ++ be32 s.d ++ be32 s.e ++ be32 s.f ++
    be32 s.g ++ be32 s.h

/-- `hmac.new(key, msg, sha256).digest()`. -/
def hmacSha256 (key msg : List Nat) : List Nat :=
  let k0 := if key.length > 64 then sha256 key else key
  let k := k0 ++ List.replicate (64 - k0.length) 0
  sha256 ((k.map (fun b => b ^^^ 0x5c)) ++
    sha256 ((k.map (fun b => b ^^^ 0x36)) ++ msg))

/-- The base64 alphabet. -/
def b64Char (n : Nat) : Char :=
  if n < 26 then Char.ofNat (65 + n)
  else if n < 52 then Char.ofNat (97 + (n - 26))
  else if n < 62 then Char.ofNat (48 + (n - 52))
  else if n = 62 then '+' else '/'

/-- `base64.b64encode`, producing an ASCII string. -/
def b64encode (bs : List Nat) : String :=
  String.mk (b64Groups bs)
where
  /-- Encode 3-byte groups, with `=` padding on the final group. -/
  b64Groups : List Nat → List Char
    | [] => []
    | [b1] =>
      [b64Char (b1 / 4), b64Char (b1 % 4 * 16), '=', '=']
    | [b1, b2] =>
      [b64Char (b1 / 4), b64Char (b1 % 4 * 16 + b2 / 16),
        b64Char (b2 % 16 * 4), '=']
    | b1 :: b2 :: b3 :: bs =>
      b64Char (b1 / 4) :: b64Char (b1 % 4 * 16 + b2 / 16) ::
        b64Char (b2 % 16 * 4 + b3 / 64) :: b64Char (b3 % 64) :: b64Groups bs

/-! ## `run_query` (base.py 9475-9538): request construction and signing

`run_query` mutates `params` in place (adding the six fixed fields),
splits the URI, canonicalizes and signs, then performs the POST via
`fetch`.  We embed the part up to the transport as a pure function
returning the updated parameter dictionary together with the request
handed to `fetch` (`none` when `parse` raises).  The current UTC
timestamp (`time.strftime(...)` at line 9504) is passed in as an
argument. -/

/-- The outbound HTTP request handed to `fetch`: the (possibly
`/`-completed) URI, the POST body, and the `Host` header. -/
structure Request where
  uri : String
  body : String
  hostHeader : String
  deriving Repr, DecidableEq

/-- Tuple comparison used by `sorted(params.items())`: Python sorts
pairs of strings lexicographically, first by key then by value. -/
def pairLe (a b : String × String) : Bool :=
  decide (a.1 < b.1) || (a.1 = b.1 && decide (a.2 ≤ b.2))

/-- The six fixed fields merged into `params` before signing
(base.py 9505-9514). -/
def fixedFields (access_key action timestamp version : String) :
    List (String × String) :=
  [("access_key_id", access_key), ("action", action),
    ("signature_version", "2"), ("signature_method", "HmacSHA256"),
    ("timestamp", timestamp), ("version", version)]

/-- The canonical query string of `run_query` (base.py 9521-9524):
sort the pairs, percent-encode with `safe="~"`, join as `k=v` with `&`. -/
def signedParamsStr (params : Dict) : String :=
  String.intercalate "&"
    ((params.mergeSort pairLe).map (fun kv => pyQuote kv.1 ++ "=" ++ pyQuote kv.2))

/-- `host:port` when a port was parsed from the URI, else `host`
(base.py 9517). -/
def signedHostStr (host : String) (port : Option Nat) : String :=
  match port with
  | some p => host ++ ":" ++ toString p
  | none => host

/-- The request-construction part of `run_query` (base.py 9475-9530):
returns the updated `params` dictionary (its in-place mutation) and the
request passed to `fetch`, or `none` when `parse` fails.  The appended
signature goes through `quote(signature)` with the default `safe="/"`
(base.py 9530), unlike the canonical pairs.  The str-coercion loop at
9496-9502 is a content-wise no-op on a `str->str` dictionary and is not
represented. -/
def run_query_state (access_key secret_key action : String) (params : Dict)
    (uri timestamp version : String) : Dict × Option Request :=
  let params' := dUpdate params (fixedFields access_key action timestamp version)
  match parseUrl uri with
  | none => (params', none)
  | some (host, port, path0) =>
    let signedHost := signedHostStr host port
    let path := if path0 = "" then "/" else path0
    let uri' := if path0 = "" then uri ++ "/" else uri
    let signedParams := signedParamsStr params'
    let toSign := "POST" ++ "\n" ++ signedHost ++ "\n" ++ path ++ "\n" ++ signedParams
    let signature := b64encode (hmacSha256 (utf8 secret_key) (utf8 toSign))
    (params', some
      ⟨uri', signedParams ++ "&signature=" ++ pyQuoteDefault signature, signedHost⟩)

/-! Specification-side formulations for the canonicalization claim:
these follow the spec's wording (sort by key alone; four lines joined
by newline) and are compared with `run_query_state` in the theorems. -/

/-- Key-only comparison: the spec sorts "lexicographically by key". -/
def keyLe (a b : String × String) : Bool :=
  decide (a.1 ≤ b.1)

/-- Canonical query string as worded by the spec: pairs sorted by key,
keys and values percent-encoded leaving `~` unescaped, joined as
`key=value` with `&`. -/
def canonicalQuerySpec (params : Dict) : String :=
  String.intercalate "&"
    ((params.mergeSort keyLe).map (fun kv => pyQuote kv.1 ++ "=" ++ pyQuote kv.2))

/-- String-to-sign as worded by the spec: four lines joined by newline —
the literal method `POST`, `host[:port]` (port only when present in the
URI), the path defaulting to `/`, and the canonical query string. -/
def stringToSignSpec (host : String) (port : Option Nat) (path0 canon : String) :
    String :=
  "POST" ++ "\n" ++ signedHostStr host port ++ "\n" ++
    (if path0 = "" then "/" else path0) ++ "\n" ++ canon

/-- Signature as worded by the spec: HMAC-SHA256 under the secret key,
base64-encoded, percent-encoded — by `quote` with its default safe set,
as the code does, so `+` and `=` are escaped while `/` is not. -/
def signatureSpec (secret_key toSign : String) : String :=
  pyQuoteDefault (b64encode (hmacSha256 (utf8 secret_key) (utf8 toSign)))

/-! ## JSON (`json.loads` on error payloads)

The error payloads handled by `HTTPError.__init__` are flat JSON objects
(`error`, `message` keys with scalar values); we model `json.loads` on
that fragment: a top-level object whose values are strings, integers,
booleans or `null`.  Anything else (including malformed input) is a
parse failure, which the source surfaces as `json.JSONDecodeError`
(a subclass of `ValueError`). -/

/-- A scalar JSON value. -/
inductive JVal where
  | jstr (s : String)
  | jint (n : Int)
  | jbool (b : Bool)
  | jnull
  deriving Repr, DecidableEq

/-- A flat JSON object. -/
abbrev JObj := List (String × JVal)

/-- JSON whitespace. -/
def skipJWs (cs : List Char) : List Char :=
  cs.dropWhile (fun c => c = ' ' || c = '\t' || c = '\n' || c = '\x0d')

/-- Parse the remainder of a JSON string (the opening quote already
consumed), returning its characters and the rest of the input. -/
def parseJStr : List Char → Option (List Char × List Char)
  | [] => none
  | '"' :: cs => some ([], cs)
  | '\\' :: e :: cs =>
    let dec : Option Char :=
      if e = 'n' then some '\n' else if e = 't' then some '\t'
      else if e = 'r' then some '\x0d' else if e = '"' then some '"'
      else if e = '\\' then some '\\' else if e = '/' then some '/'
      else none
    match dec with
    | none => none
    | some d => (parseJStr cs).map (fun r => (d :: r.1, r.2))
  | c :: cs => (parseJStr cs).map (fun r => (c :: r.1, r.2))

/-- Parse a JSON integer (floats and exponents are outside the
modelled fragment). -/
def parseJInt (cs : List Char) : Option (Int × List Char) :=
  let neg := match cs with | '-' :: _ => true | _ => false
  let cs' := if neg then cs.drop 1 else cs
  let ds := cs'.takeWhile (·.isDigit)
  let rest := cs'.dropWhile (·.isDigit)
  if ds.isEmpty then none
  else
    match rest with
    | '.' :: _ => none
    | 'e' :: _ => none
    | 'E' :: _ => none
    | _ =>
      let n : Nat := ds.foldl (fun n c => 10 * n + (c.toNat - 48)) 0
      some (if neg then -(n : Int) else (n : Int), rest)

/-- Parse one scalar JSON value. -/
def parseJVal (cs : List Char) : Option (JVal × List Char) :=
  match skipJWs cs with
  | '"' :: rest => (parseJStr rest).map (fun r => (.jstr (String.mk r.1), r.2))
  | 't' :: 'r' :: 'u' :: 'e' :: rest => some (.jbool true, rest)
  | 'f' :: 'a' :: 'l' :: 's' :: 'e' :: rest => some (.jbool false, rest)
  | 'n' :: 'u' :: 'l' :: 'l' :: rest => some (.jnull, rest)
  | rest => (parseJInt rest).map (fun r => (.jint r.1, r.2))

/-- Parse the members of a JSON object (after the opening brace),
with fuel. -/
def parseJPairs : Nat → List Char → Option (JObj × List Char)
  | 0, _ => none
  | fuel + 1, cs =>
    match skipJWs cs with
    | '"' :: rest =>
      match parseJStr rest with
      | none => none
      | some (k, rest) =>
        match skipJWs rest with
        | ':' :: rest =>
          match parseJVal rest with
          | none => none
          | some (v, rest) =>
            match skipJWs rest with
            | ',' :: rest' =>
              (parseJPairs fuel rest').map
                (fun r => ((String.mk k, v) :: r.1, r.2))
            | '\x7d' :: rest' => some ([(String.mk k, v)], rest')
            | _ => none
        | _ => none
    | _ => none

/-- `json.loads` on the modelled fragment: `none` is a
`json.JSONDecodeError`. -/
def json_loads (s : String) : Option JObj :=
  match skipJWs s.data with
  | '\x7b' :: rest =>
    match skipJWs rest with
    | '\x7d' :: rest' => if skipJWs rest' = [] then some [] else none
    | _ =>
      match parseJPairs s.data.length rest with
      | none => none
      | some (ps, rest') => if skipJWs rest' = [] then some ps else none
  | _ => none

/-! ## The exception model

Python exception classes relevant here: `HTTPError`, its subclass
`APIError` (base.py 9411-9412), the registry classes generated by
`_build_exception` (subclasses of `APIError`, identified by a class id
and their name), and the ordinary built-in exceptions raised by the
client code itself. -/

/-- The class of a raised server-error exception. -/
inductive PyClassK where
  | httpErrorCls
  | apiErrorCls
  | multiErrorCls
  | schemaCls (id : Nat) (name : String)
  deriving Repr, DecidableEq

/-- `isinstance(-, APIError)`: every class of the taxonomy except
`HTTPError` itself derives from `APIError`. -/
def isAPIErrorInstance : PyClassK → Bool
  | .httpErrorCls => false
  | _ => true

/-- Field values of an `HTTPError` (or subclass) instance, as set by
`HTTPError.__init__` (base.py 9385-9397). -/
structure HTTPErrorV where
  code : Nat
  message : Option String
  messageData : Option JObj
  errorCode : Option JVal
  errorMessage : Option JVal
  deriving Repr, DecidableEq

/-- An exception raised by the client code. -/
inductive PyExc where
  | typeError (msg : String)
  | keyError (key : String)
  | valueError (msg : String)
  | jsonDecodeError
  | attributeError (msg : String)
  | raisedHTTP (cls : PyClassK) (e : HTTPErrorV)
  deriving Repr, DecidableEq

/-- The Python class name of a raised exception. -/
def PyExc.className : PyExc → String
  | .typeError _ => "TypeError"
  | .keyError _ => "KeyError"
  | .valueError _ => "ValueError"
  | .jsonDecodeError => "JSONDecodeError"
  | .attributeError _ => "AttributeError"
  | .raisedHTTP cls _ =>
    match cls with
    | .httpErrorCls => "HTTPError"
    | .apiErrorCls => "APIError"
    | .multiErrorCls => "MultiError"
    | .schemaCls _ n => n

/-- Equality of modelled call results is decidable. -/
instance {e a : Type} [DecidableEq e] [DecidableEq a] : DecidableEq (Except e a) :=
  fun x y =>
    match x, y with
    | .ok u, .ok v =>
      if h : u = v then .isTrue (by rw [h])
      else .isFalse (fun he => h (Except.ok.inj he))
    | .error u, .error v =>
      if h : u = v then .isTrue (by rw [h])
      else .isFalse (fun he => h (Except.error.inj he))
    | .ok _, .error _ => .isFalse (fun he => Except.noConfusion he)
    | .error _, .ok _ => .isFalse (fun he => Except.noConfusion he)

/-- Whether a raised exception is an instance of `APIError` (the base
class of every registry error class). -/
def PyExc.isAPIError : PyExc → Bool
  | .raisedHTTP cls _ => isAPIErrorInstance cls
  | _ => false

/-- Lookup of a key in a JSON object (`o[k]`, `KeyError` when absent). -/
def jLookup (o : JObj) (k : String) : Option JVal :=
  (o.find? (fun kv => kv.1 = k)).map (·.2)

/-- `HTTPError.__init__(code, message, message_data)` (base.py
9385-9397).  `json.loads` is attempted whenever the message starts with
`{`S; a failure there propagates as `JSONDecodeError`, and a parsed
object without `error`/`message` keys raises `KeyError` — the
constructor itself can raise. -/
def HTTPError_init (code : Nat) (message : Option String)
    (messageData : Option JObj) : Except PyExc HTTPErrorV := do
  let md0 : Option JObj ←
    match message with
    | some m =>
      match m.data with
      | '\x7b' :: _ =>
        match json_loads m with
        | some o => pure (some o)
        | none => throw PyExc.jsonDecodeError
      | _ => pure (none : Option JObj)
    | none => pure (none : Option JObj)
  let md : Option JObj :=
    match messageData with
    | some d => if d ≠ [] then some d else md0
    | none => md0
  let fields : Option (JVal × JVal) ←
    match md with
    | some o =>
      if o ≠ [] then
        match jLookup o "error" with
        | none => throw (PyExc.keyError "error")
        | some ec =>
          match jLookup o "message" with
          | none => throw (PyExc.keyError "message")
          | some em => pure (some (ec, em))
      else pure (none : Option (JVal × JVal))
    | none => pure (none : Option (JVal × JVal))
  pure ⟨code, message, md, fields.map (·.1), fields.map (·.2)⟩

/-! ## Error registry (`_ErrorsContainer`, `_build_exceptions`,
base.py 9352-9370 and 9581-9595)

`_build_exception` creates a fresh class object on every call; we model
class identity by a running counter.  The registry is the container's
attribute map: an association list from normalized name to class id. -/

/-- The registry held by the `_ErrorsContainer`. -/
abbrev Registry := List (String × Nat)

/-- `_ErrorsContainer.lookup_error` (base.py 9365-9370). -/
def lookup_error (errors : Registry) (error_name : String) : Option Nat :=
  (errors.find? (fun kv => kv.1 = error_name)).map (·.2)

/-- `_ErrorsContainer.add_error` (base.py 9357-9363). -/
def add_error (errors : Registry) (error_name : String) (cls : Nat) : Registry :=
  errors ++ [(error_name, cls)]

/-- `_get_error_code_name` (base.py 9541-9550): append `Error` unless
the code already ends with it. -/
def _get_error_code_name (error_code : String) : String :=
  if List.isSuffixOf "Error".data error_code.data then error_code
  else error_code ++ "Error"

/-- The schema as `_build_exceptions` walks it: for each action, for
each version, the declared error codes. -/
abbrev SchemaErrors := List (String × List (String × List String))

/-- The error codes of a schema in iteration order. -/
def schemaCodes (schema : SchemaErrors) : List String :=
  schema.flatMap (fun av => av.2.flatMap (fun vh => vh.2))

/-- One iteration of `_build_exceptions`: build a fresh exception class
(the counter), then register it only if the name is not yet present. -/
def buildStep (st : Registry × Nat) (code : String) : Registry × Nat :=
  let name := _get_error_code_name code
  let reg :=
    if (lookup_error st.1 name).isSome then st.1
    else add_error st.1 name st.2
  (reg, st.2 + 1)

/-- `_build_exceptions` (base.py 9581-9595). -/
def _build_exceptions (schema : SchemaErrors) : Registry :=
  ((schemaCodes schema).foldl buildStep ([], 0)).1

/-! ## `run_query`'s error handler (base.py 9531-9538) -/

/-- The `except HTTPError` handler of `run_query`, applied to the
`HTTPError(status_code, text)` raised by `fetch` on a non-2xx response
(base.py 9441-9442): the exception that escapes `run_query`.  When the
registry knows the normalized code, `error_class(e.code, e.message)` is
raised (running `HTTPError.__init__` again); otherwise the original
`HTTPError` is re-raised (`raise e`).  A non-string error code makes
`error_code.endswith` raise `AttributeError`. -/
def run_query_error_dispatch (errors : Registry) (status : Nat)
    (body : String) : PyExc :=
  match HTTPError_init status (some body) none with
  | .error ex => ex
  | .ok e =>
    match e.errorCode with
    | some (.jstr c) =>
      match lookup_error errors (_get_error_code_name c) with
      | some cls =>
        match HTTPError_init e.code e.message none with
        | .ok e' => PyExc.raisedHTTP (.schemaCls cls (_get_error_code_name c)) e'
        | .error ex => ex
      | none => PyExc.raisedHTTP .httpErrorCls e
    | some _ => PyExc.attributeError "endswith"
    | none => PyExc.raisedHTTP .httpErrorCls e

/-! ## Caller-supplied values

The Python values that flow into the encoder: `None`, `int`, `str`,
`bool`, `list` and `dict` (`datetime`/`date` objects and open files are
outside the modelled universe; no claim concerns them). -/

/-- A Python value supplied for a parameter. -/
inductive Value where
  | vnone
  | vint (n : Int)
  | vstr (s : String)
  | vbool (b : Bool)
  | vlist (xs : List Value)
  | vdict (kvs : List (Value × Value))

mutual

/-- Python `==` on the modelled values (`bool` compares equal to the
ints `0`/`1`; distinct types otherwise compare unequal).  Python dict
equality ignores insertion order; the embedding compares entries
pointwise, which agrees on the dictionaries the client compares. -/
def pyEq : Value → Value → Bool
  | .vnone, .vnone => true
  | .vint m, .vint n => m == n
  | .vbool a, .vbool b => a == b
  | .vbool a, .vint n => (if a then (1 : Int) else 0) == n
  | .vint n, .vbool a => n == (if a then (1 : Int) else 0)
  | .vstr s, .vstr t => s == t
  | .vlist xs, .vlist ys => pyEqList xs ys
  | .vdict xs, .vdict ys => pyEqPairs xs ys
  | _, _ => false

/-- Pointwise `==` on lists. -/
def pyEqList : List Value → List Value → Bool
  | [], [] => true
  | x :: xs, y :: ys => pyEq x y && pyEqList xs ys
  | _, _ => false

/-- Pointwise `==` on key/value pair lists. -/
def pyEqPairs : List (Value × Value) → List (Value × Value) → Bool
  | [], [] => true
  | (k, v) :: xs, (k', v') :: ys => pyEq k k' && pyEq v v' && pyEqPairs xs ys
  | _, _ => false

end

mutual

/-- Python `repr()` on the modelled values (quote-escaping inside
`repr` of strings is elided; the encoder only stringifies scalars). -/
def pyRepr : Value → String
  | .vnone => "None"
  | .vint n => toString n
  | .vstr s => "'" ++ s ++ "'"
  | .vbool b => if b then "True" else "False"
  | .vlist xs => "[" ++ String.intercalate ", " (pyReprList xs) ++ "]"
  | .vdict kvs => "\x7b" ++ String.intercalate ", " (pyReprPairs kvs) ++ "\x7d"

/-- `repr` of each element of a list. -/
def pyReprList : List Value → List String
  | [] => []
  | x :: xs => pyRepr x :: pyReprList xs

/-- `repr` of each `key: value` member of a dict. -/
def pyReprPairs : List (Value × Value) → List String
  | [] => []
  | (k, v) :: kvs => (pyRepr k ++ ": " ++ pyRepr v) :: pyReprPairs kvs

end

/-- Python `str()` on the modelled values. -/
def pyStr : Value → String
  | .vnone => "None"
  | .vint n => toString n
  | .vstr s => s
  | .vbool b => if b then "True" else "False"
  | .vlist xs => "[" ++ String.intercalate ", " (pyReprList xs) ++ "]"
  | .vdict kvs => "\x7b" ++ String.intercalate ", " (pyReprPairs kvs) ++ "\x7d"

/-- Python truthiness of the modelled values. -/
def pyTruthy : Value → Bool
  | .vnone => false
  | .vint n => n ≠ 0
  | .vstr s => s ≠ ""
  | .vbool b => b
  | .vlist xs => ¬xs.isEmpty
  | .vdict kvs => ¬kvs.isEmpty

/-! ## Parameter specifications

A schema parameter description: its type tag (with the nested `item`,
`key`/`value` and `fields` descriptions), its `optional` flag and its
`default` (absent defaults read as `None` through `parameter.get`).
The `file` and `data` tags perform local file I/O and are outside the
embedding; no claim concerns them. -/

mutual

/-- The type tag of a parameter description, with its nested
descriptions. -/
inductive PTy where
  | integer
  | float
  | raw_string
  | enum
  | unicode
  | unicode_line
  | unicode_title
  | boolean
  | date
  | plist (item : PSpec)
  | pmapping (key value : PSpec)
  | pstruct (fields : List (String × PSpec))

/-- A parameter description: type, `optional` flag, declared default. -/
inductive PSpec where
  | mk (ty : PTy) (optional : Bool) (dflt : Value)

end

/-- The type tag of a description. -/
def PSpec.ty : PSpec → PTy
  | .mk t _ _ => t

/-- `parameter.get("optional")`. -/
def PSpec.optional : PSpec → Bool
  | .mk _ o _ => o

/-- `parameter.get("default")`. -/
def PSpec.dflt : PSpec → Value
  | .mk _ _ d => d

/-- The scalar type tags: their handlers emit a single key. -/
def PTy.isScalar : PTy → Bool
  | .integer | .float | .raw_string | .enum | .unicode | .unicode_line
  | .unicode_title | .boolean => true
  | _ => false

/-! ## The encoder (`_API._encode_*`, base.py 9731-9869) -/

/-- Keyword-argument lookup (`parameter_name in arguments`). -/
def lookupArg (args : List (String × Value)) (k : String) : Option Value :=
  (args.find? (fun kv => kv.1 = k)).map (·.2)

/-- `arguments.pop(parameter_name)`: remove the entry. -/
def removeArg (args : List (String × Value)) (k : String) :
    List (String × Value) :=
  args.eraseP (fun kv => kv.1 = k)

/-- `_parse_csv_mapping_safely` (base.py 10238-10249): partition each
comma-separated item at its first `=`; an item without `=` raises
`ValueError`. -/
def _parse_csv_mapping_safely (cs : List Char) :
    Except PyExc (List (List Char × List Char)) :=
  (parseCsvListSafely cs).mapM (fun item =>
    if item.contains '=' then
      pure (item.takeWhile (fun c => c ≠ '='),
        (item.dropWhile (fun c => c ≠ '=')).drop 1)
    else throw (PyExc.valueError "invalid key/value pair"))

/-- The items fed to the `_encode_mapping` loop (base.py 9843-9846):
a string is parsed as comma-separated `k=v` pairs with both sides
stripped; a dict yields its items; an iterable of two-element lists
unpacks them. -/
def mappingItems : Value → Except PyExc (List (Value × Value))
  | .vstr s => do
    let kvs ← _parse_csv_mapping_safely s.data
    pure (kvs.map (fun kv =>
      (Value.vstr (String.mk (pyStrip kv.1)), Value.vstr (String.mk (pyStrip kv.2)))))
  | .vdict kvs => pure kvs
  | .vlist xs =>
    xs.mapM (fun x =>
      match x with
      | .vlist [k, v] => pure (k, v)
      | _ => throw (PyExc.valueError "unpack"))
  | _ => throw (PyExc.typeError "not iterable")

/-- The argument dictionary of a `structure` value: a dict with string
keys (other values lack `.copy()`/string-keyed access and raise). -/
def structArgs : Value → Except PyExc (List (String × Value))
  | .vdict kvs =>
    kvs.mapM (fun kv =>
      match kv.1 with
      | .vstr s => pure (s, kv.2)
      | _ => throw (PyExc.typeError "non-string field name"))
  | _ => throw (PyExc.attributeError "copy")

mutual

/-- `_API._encode_argument` (base.py 9758-9770): suppress an optional
value equal to its default, then dispatch on the type tag.  The
scalar handlers (base.py 9772-9798) all return `{name: str(value)}`;
`boolean` (9810-9811) encodes truthiness as `"true"`/`"false"`;
`date` (9813-9818) passes strings through. -/
def _encode_argument (p : PSpec) (name : String) (v : Value) :
    Except PyExc Dict :=
  if p.optional && pyEq v p.dflt then Except.ok []
  else
    match p with
    | .mk .integer _ _ => Except.ok [(name, pyStr v)]
    | .mk .float _ _ => Except.ok [(name, pyStr v)]
    | .mk .raw_string _ _ => Except.ok [(name, pyStr v)]
    | .mk .enum _ _ => Except.ok [(name, pyStr v)]
    | .mk .unicode _ _ => Except.ok [(name, pyStr v)]
    | .mk .unicode_line _ _ => Except.ok [(name, pyStr v)]
    | .mk .unicode_title _ _ => Except.ok [(name, pyStr v)]
    | .mk .boolean _ _ => Except.ok [(name, if pyTruthy v then "true" else "false")]
    | .mk .date _ _ =>
      match v with
      | .vstr s => Except.ok [(name, s)]
      | _ => Except.error (PyExc.attributeError "strftime")
    | .mk (.plist item) _ _ => _encode_list item name v
    | .mk (.pmapping kp vp) _ _ => _encode_mapping kp vp name v
    | .mk (.pstruct fields) _ _ =>
      match structArgs v with
      | .error e => Except.error e
      | .ok args => _encode_struct_fields fields args (name ++ ".")
  termination_by (sizeOf p, 0, 0)

/-- `_API._encode_list` (base.py 9820-9834): a string value is split at
every comma by `str.split` (no `\,` escape handling) and each item
stripped; then each item is emitted at `name.1`, `name.2`, ... -/
def _encode_list (item : PSpec) (name : String) (v : Value) :
    Except PyExc Dict :=
  match v with
  | .vstr s =>
    encodeSeq item name
      ((pySplitChar ',' s.data).map (fun cs => Value.vstr (String.mk (pyStrip cs)))) 0 []
  | .vlist xs => encodeSeq item name xs 0 []
  | _ => Except.error (PyExc.typeError "not iterable")
  termination_by (sizeOf item, 2, 0)

/-- The `for i, item in enumerate(sequence)` loop of `_encode_list`,
accumulating `result.update(...)`. -/
def encodeSeq (item : PSpec) (name : String) (xs : List Value) (i : Nat)
    (result : Dict) : Except PyExc Dict :=
  match xs with
  | [] => Except.ok result
  | x :: rest =>
    match _encode_argument item (name ++ "." ++ toString (i + 1)) x with
    | .error e => Except.error e
    | .ok enc => encodeSeq item name rest (i + 1) (dUpdate result enc)
  termination_by (sizeOf item, 1, xs.length)

/-- `_API._encode_mapping` (base.py 9836-9855). -/
def _encode_mapping (kp vp : PSpec) (name : String) (v : Value) :
    Except PyExc Dict :=
  match mappingItems v with
  | .error e => Except.error e
  | .ok items => encodeMapItems kp vp name items []
  termination_by (sizeOf (PTy.pmapping kp vp), 2, 0)

/-- The `for key, value in items` loop of `_encode_mapping`: the key is
encoded under the probe name `<key>` and read back (a `KeyError` if the
key encoding suppressed it), then the value is emitted at
`name.<encoded-key>`. -/
def encodeMapItems (kp vp : PSpec) (name : String)
    (items : List (Value × Value)) (result : Dict) : Except PyExc Dict :=
  match items with
  | [] => Except.ok result
  | (k, v) :: rest =>
    match _encode_argument kp "<key>" k with
    | .error e => Except.error e
    | .ok ek =>
      match dFind ek "<key>" with
      | none => Except.error (PyExc.keyError "<key>")
      | some key =>
        match _encode_argument vp (name ++ "." ++ key) v with
        | .error e => Except.error e
        | .ok ev => encodeMapItems kp vp name rest (dUpdate result ev)
  termination_by (sizeOf (PTy.pmapping kp vp), 1, items.length)

/-- The field loop of `_API._encode_struct_fields` (base.py 9743-9753):
returns the accumulated result and the remaining (un-popped)
arguments. -/
def encodeFieldsGo (fields : List (String × PSpec))
    (arguments : List (String × Value)) (pfx : String) (result : Dict) :
    Except PyExc (Dict × List (String × Value)) :=
  match fields with
  | [] => Except.ok (result, arguments)
  | (pname, pdesc) :: rest =>
    match lookupArg arguments pname with
    | none =>
      if ¬pdesc.optional then
        Except.error (PyExc.typeError ("Missing parameter " ++ pname))
      else encodeFieldsGo rest arguments pfx result
    | some v =>
      match _encode_argument pdesc (pfx ++ pname) v with
      | .error e => Except.error e
      | .ok enc =>
        encodeFieldsGo rest (removeArg arguments pname) pfx (dUpdate result enc)
  termination_by (sizeOf fields, 1, 0)

/-- `_API._encode_struct_fields` (base.py 9731-9756): encode the
declared fields, then reject leftover arguments (`Extra arguments`). -/
def _encode_struct_fields (fields : List (String × PSpec))
    (arguments : List (String × Value)) (pfx : String) : Except PyExc Dict :=
  match encodeFieldsGo fields arguments pfx [] with
  | .error e => Except.error e
  | .ok (result, rem) =>
    if rem.isEmpty then Except.ok result
    else Except.error (PyExc.typeError "Extra arguments")
  termination_by (sizeOf fields, 2, 0)

end

/-- `_API.call` (base.py 9719-9729) composed with `_API.run_query`
(9701-9717) up to the transport: encode the schema-declared parameters,
then build the signed request.  An encoding failure propagates and the
request (the input of `fetch`) is never constructed. -/
def API_call (parameters : List (String × PSpec))
    (kwargs : List (String × Value))
    (access_key secret_key action uri timestamp version : String) :
    Except PyExc (Dict × Option Request) :=
  match _encode_struct_fields parameters kwargs "" with
  | .error e => .error e
  | .ok arguments =>
    .ok (run_query_state access_key secret_key action arguments uri timestamp version)

/-! # Theorems

First the supporting lemmas, then one theorem per behavioural claim. -/

/-! ## CSV parser lemmas -/

/-- The `acc` component of the loop state is a pure accumulator. -/
theorem csvRun_acc (cs : List Char) : ∀ (i : List Char) (e : Bool)
    (b a : List (List Char)),
    List.foldl csvStep ⟨i, e, b ++ a⟩ cs =
      ⟨(List.foldl csvStep ⟨i, e, a⟩ cs).item,
        (List.foldl csvStep ⟨i, e, a⟩ cs).escaped,
        b ++ (List.foldl csvStep ⟨i, e, a⟩ cs).acc⟩ := by
  induction cs with
  | nil => intro i e b a; rfl
  | cons c cs ih =>
    intro i e b a
    simp only [List.foldl_cons, csvStep]
    split_ifs
    all_goals first
      | exact ih ..
      | (rw [List.append_assoc]; exact ih ..)

/-- `csvFinish` prepends the accumulator. -/
theorem csvFinish_acc (i : List Char) (e : Bool) (b a : List (List Char)) :
    csvFinish ⟨i, e, b ++ a⟩ = b ++ csvFinish ⟨i, e, a⟩ := by
  simp only [csvFinish]
  split_ifs <;> simp

/-- Feeding the comma-escaped form of a backslash-free part to the loop
appends the part to the pending item, leaves `escaped` clear and yields
nothing. -/
theorem csvFold_part (p : List Char) (hp : '\\' ∉ p) : ∀ (i : List Char)
    (a : List (List Char)),
    List.foldl csvStep ⟨i, false, a⟩ (escapeCommas p) = ⟨i ++ p, false, a⟩ := by
  induction p with
  | nil => intro i a; simp [escapeCommas]
  | cons c p ih =>
    intro i a
    have hc : c ≠ '\\' := fun h => hp (h ▸ List.mem_cons_self c p)
    have hp' : '\\' ∉ p := fun h => hp (List.mem_cons_of_mem c h)
    by_cases h : c = ','
    · subst h
      have e1 : escapeCommas (',' :: p) = '\\' :: ',' :: escapeCommas p := rfl
      rw [e1]
      simp only [List.foldl_cons]
      have s1 : csvStep ⟨i, false, a⟩ '\\' = ⟨i, true, a⟩ := by simp [csvStep]
      rw [s1]
      have s2 : csvStep ⟨i, true, a⟩ ',' = ⟨i ++ [','], false, a⟩ := by
        simp [csvStep]
      rw [s2, ih hp']
      simp
    · have e1 : escapeCommas (c :: p) = c :: escapeCommas p := by
        simp [escapeCommas, List.flatMap_cons, h]
      rw [e1]
      simp only [List.foldl_cons]
      have s1 : csvStep ⟨i, false, a⟩ c = ⟨i ++ [c], false, a⟩ := by
        simp [csvStep, h, hc]
      rw [s1, ih hp']
      simp

/-- The restricted round trip, generalized over the accumulator. -/
theorem csv_roundtrip_aux (ps : List (List Char))
    (hps : ∀ p ∈ ps, '\\' ∉ p) (hlast : ps.getLast? ≠ some []) :
    ∀ (a : List (List Char)),
    csvFinish (List.foldl csvStep ⟨[], false, a⟩ (joinCsvEscaped ps)) = a ++ ps := by
  induction ps with
  | nil => intro a; simp [joinCsvEscaped, csvFinish]
  | cons p ps ih =>
    intro a
    cases ps with
    | nil =>
      have hp : '\\' ∉ p := hps p (List.mem_cons_self p [])
      have hpne : p ≠ [] := by
        intro h
        exact hlast (by simp [h])
      rw [show joinCsvEscaped [p] = escapeCommas p from rfl, csvFold_part p hp]
      simp [csvFinish, hpne]
    | cons q qs =>
      have hp : '\\' ∉ p := hps p (List.mem_cons_self p (q :: qs))
      rw [show joinCsvEscaped (p :: q :: qs) =
        escapeCommas p ++ ',' :: joinCsvEscaped (q :: qs) from rfl]
      rw [List.foldl_append, csvFold_part p hp, List.foldl_cons]
      have step : csvStep ⟨[] ++ p, false, a⟩ ',' = ⟨[], false, a ++ [[] ++ p]⟩ := by
        simp [csvStep]
      rw [step]
      have ih' := ih (fun r hr => hps r (List.mem_cons_of_mem p hr))
        (by rwa [List.getLast?_cons_cons] at hlast) (a ++ [[] ++ p])
      rw [ih']
      simp

/-- A trailing backslash materializes literally in the final item. -/
theorem csv_trailing_backslash (cs : List Char) :
    parseCsvListSafely (cs ++ ['\\']) =
      (csvRun cs).acc ++ [(csvRun cs).item ++ ['\\']] := by
  unfold parseCsvListSafely csvRun
  rw [List.foldl_append]
  simp only [List.foldl_cons, List.foldl_nil]
  have step : csvStep (List.foldl csvStep ⟨[], false, []⟩ cs) '\\' =
      ⟨(List.foldl csvStep ⟨[], false, []⟩ cs).item, true,
        (List.foldl csvStep ⟨[], false, []⟩ cs).acc⟩ := by
    simp [csvStep]
  rw [step]
  simp [csvFinish]

/-- Claim C2 (amended): the CSV round trip holds for backslash-free
parts whose final part is non-empty — joining parts with commas after
escaping each comma as `\,` parses back to exactly the original parts —
and a trailing unescaped backslash at the end of the input is preserved
literally (appended to the final item).  (The unrestricted round trip of
the original claim fails for parts containing backslashes, see the
counterexample.) -/
theorem csv_roundtrip_escaped_parts (ps : List (List Char)) (cs : List Char)
    (hps : ∀ p ∈ ps, '\\' ∉ p) (hlast : ps.getLast? ≠ some []) :
    parseCsvListSafely (joinCsvEscaped ps) = ps ∧
    parseCsvListSafely (cs ++ ['\\']) =
      (csvRun cs).acc ++ [(csvRun cs).item ++ ['\\']] := by
  refine ⟨?_, csv_trailing_backslash cs⟩
  have h := csv_roundtrip_aux ps hps hlast []
  simpa [parseCsvListSafely, csvRun] using h

/-- Witness for `csv_roundtrip_escaped_parts`: the parts `["a,", "c"]`
(no backslashes, non-empty last part) survive the round trip, and
`"x" ++ "\"` keeps its trailing backslash. -/
theorem csv_roundtrip_escaped_parts_witness :
    ((∀ p ∈ [['a', ','], ['c']], '\\' ∉ p) ∧
      ([['a', ','], ['c']] : List (List Char)).getLast? ≠ some []) ∧
    (parseCsvListSafely (joinCsvEscaped [['a', ','], ['c']]) = [['a', ','], ['c']] ∧
      parseCsvListSafely (['x'] ++ ['\\']) =
        (csvRun ['x']).acc ++ [(csvRun ['x']).item ++ ['\\']]) :=
  ⟨⟨by decide, by decide⟩,
    csv_roundtrip_escaped_parts [['a', ','], ['c']] ['x'] (by decide) (by decide)⟩

/-- Claim C2, counterexample to the unrestricted round trip: the parts
`["a\", "c"]` (first part ends in a backslash; neither contains a
comma, so comma-escaping leaves them unchanged) are joined to `a\,c`,
which parses back to the single part `["a,c"]`. -/
theorem csv_roundtrip_counterexample :
    parseCsvListSafely (joinCsvEscaped [['a', '\\'], ['c']]) = [['a', ',', 'c']] ∧
    parseCsvListSafely (joinCsvEscaped [['a', '\\'], ['c']]) ≠ [['a', '\\'], ['c']] := by
  constructor <;> decide

/-- Claim C10 (amended): a trailing empty segment is dropped — for an
input ending in an unescaped comma, the parsed items equal those of the
input without that comma provided the segment before it is non-empty —
and a leading unescaped comma (and hence each of two adjacent unescaped
commas) yields an empty-string item.  (The original claim, without the
non-empty proviso, fails on `"a,,"`, see the counterexample.) -/
theorem csv_trailing_comma_dropped (cs ds : List Char)
    (h1 : (csvRun cs).escaped = false) (h2 : (csvRun cs).item ≠ []) :
    parseCsvListSafely (cs ++ [',']) = parseCsvListSafely cs ∧
    parseCsvListSafely (',' :: ds) = [] :: parseCsvListSafely ds := by
  have h1' : (List.foldl csvStep ⟨[], false, []⟩ cs).escaped = false := h1
  have h2' : (List.foldl csvStep ⟨[], false, []⟩ cs).item ≠ [] := h2
  constructor
  · unfold parseCsvListSafely csvRun
    rw [List.foldl_append]
    simp only [List.foldl_cons, List.foldl_nil]
    have step : csvStep (List.foldl csvStep ⟨[], false, []⟩ cs) ',' =
        ⟨[], false, (List.foldl csvStep ⟨[], false, []⟩ cs).acc ++
          [(List.foldl csvStep ⟨[], false, []⟩ cs).item]⟩ := by
      simp [csvStep, h1']
    rw [step]
    simp [csvFinish, h1', h2']
  · unfold parseCsvListSafely csvRun
    rw [List.foldl_cons]
    have step : csvStep ⟨[], false, []⟩ ',' = ⟨[], false, [[]] ++ []⟩ := by
      simp [csvStep]
    rw [step, csvRun_acc, csvFinish_acc]
    rfl

/-- Witness for `csv_trailing_comma_dropped`: `"ab," parses like "ab"`,
and `",x"` yields a leading empty item. -/
theorem csv_trailing_comma_dropped_witness :
    ((csvRun ['a', 'b']).escaped = false ∧ (csvRun ['a', 'b']).item ≠ []) ∧
    (parseCsvListSafely (['a', 'b'] ++ [',']) = parseCsvListSafely ['a', 'b'] ∧
      parseCsvListSafely (',' :: ['x']) = [] :: parseCsvListSafely ['x']) :=
  ⟨⟨by decide, by decide⟩,
    csv_trailing_comma_dropped ['a', 'b'] ['x'] (by decide) (by decide)⟩

/-- Claim C10, counterexample to the unrestricted statement: `"a,,"`
ends in an unescaped comma, yet it does not parse like `"a,"` — the
empty segment between the two commas is kept (`["a", ""]` against
`["a"]`), so an empty final item can be produced. -/
theorem csv_trailing_comma_counterexample :
    parseCsvListSafely ['a', ',', ','] = [['a'], []] ∧
    parseCsvListSafely ['a', ','] = [['a']] ∧
    parseCsvListSafely (['a', ','] ++ [',']) ≠ parseCsvListSafely ['a', ','] := by
  refine ⟨by decide, by decide, by decide⟩

/-! ## Dictionary lemmas and the `run_query` frame effect (C9) -/

/-- Looking up the key just set returns the new value. -/
theorem dFind_dset_self (d : Dict) (k v : String) :
    dFind (dset d k v) k = some v := by
  induction d with
  | nil => simp [dset, dFind, List.find?]
  | cons kv d ih =>
    by_cases h : kv.1 = k
    · simp [dset, h, dFind, List.find?]
    · simp only [dset, if_neg h]
      simpa [dFind, List.find?, h] using ih

/-- Setting one key leaves every other key's lookup unchanged. -/
theorem dFind_dset_other (d : Dict) (k v k' : String) (h : k' ≠ k) :
    dFind (dset d k v) k' = dFind d k' := by
  induction d with
  | nil => simp [dset, dFind, List.find?, Ne.symm h]
  | cons kv d ih =>
    by_cases hk : kv.1 = k
    · simp [dset, hk, dFind, List.find?, Ne.symm h]
    · simp only [dset, if_neg hk]
      by_cases he : kv.1 = k'
      · simp [dFind, List.find?, he]
      · simpa [dFind, List.find?, he] using ih

/-- The six fixed-field updates of `run_query`, unrolled. -/
theorem dUpdate_fixedFields (params : Dict) (ak act ts ver : String) :
    dUpdate params (fixedFields ak act ts ver) =
      dset (dset (dset (dset (dset (dset params "access_key_id" ak)
        "action" act) "signature_version" "2") "signature_method" "HmacSHA256")
        "timestamp" ts) "version" ver := by
  simp [dUpdate, fixedFields]

/-- The parameter dictionary coming out of `run_query` is the input one
updated with the six fixed fields, whether or not `parse` succeeds. -/
theorem run_query_state_params (ak sk act : String) (params : Dict)
    (uri ts ver : String) :
    (run_query_state ak sk act params uri ts ver).1 =
      dUpdate params (fixedFields ak act ts ver) := by
  unfold run_query_state
  cases h : parseUrl uri with
  | none => rfl
  | some t => rcases t with ⟨host, port, path0⟩; rfl

/-- Claim C9: `run_query` mutates the caller's `params` dictionary in
place: after the update step (reached whether the HTTP call then
returns or raises), `params` holds the six fixed fields
`access_key_id`, `action`, `signature_version`, `signature_method`,
`timestamp` and `version` — overwriting any equally named entries the
caller passed — and every other key is untouched. -/
theorem run_query_mutates_params (ak sk act : String) (params : Dict)
    (uri ts ver : String) :
    dFind (run_query_state ak sk act params uri ts ver).1 "access_key_id" = some ak ∧
    dFind (run_query_state ak sk act params uri ts ver).1 "action" = some act ∧
    dFind (run_query_state ak sk act params uri ts ver).1 "signature_version" = some "2" ∧
    dFind (run_query_state ak sk act params uri ts ver).1 "signature_method" = some "HmacSHA256" ∧
    dFind (run_query_state ak sk act params uri ts ver).1 "timestamp" = some ts ∧
    dFind (run_query_state ak sk act params uri ts ver).1 "version" = some ver ∧
    ∀ k, k ≠ "access_key_id" → k ≠ "action" → k ≠ "signature_version" →
      k ≠ "signature_method" → k ≠ "timestamp" → k ≠ "version" →
      dFind (run_query_state ak sk act params uri ts ver).1 k = dFind params k := by
  rw [run_query_state_params, dUpdate_fixedFields]
  refine ⟨?_, ?_, ?_, ?_, ?_, ?_, ?_⟩
  · rw [dFind_dset_other _ _ _ _ (by decide), dFind_dset_other _ _ _ _ (by decide),
      dFind_dset_other _ _ _ _ (by decide), dFind_dset_other _ _ _ _ (by decide),
      dFind_dset_other _ _ _ _ (by decide), dFind_dset_self]
  · rw [dFind_dset_other _ _ _ _ (by decide), dFind_dset_other _ _ _ _ (by decide),
      dFind_dset_other _ _ _ _ (by decide), dFind_dset_other _ _ _ _ (by decide),
      dFind_dset_self]
  · rw [dFind_dset_other _ _ _ _ (by decide), dFind_dset_other _ _ _ _ (by decide),
      dFind_dset_other _ _ _ _ (by decide), dFind_dset_self]
  · rw [dFind_dset_other _ _ _ _ (by decide), dFind_dset_other _ _ _ _ (by decide),
      dFind_dset_self]
  · rw [dFind_dset_other _ _ _ _ (by decide), dFind_dset_self]
  · rw [dFind_dset_self]
  · intro k h1 h2 h3 h4 h5 h6
    rw [dFind_dset_other _ _ _ _ h6, dFind_dset_other _ _ _ _ h5,
      dFind_dset_other _ _ _ _ h4, dFind_dset_other _ _ _ _ h3,
      dFind_dset_other _ _ _ _ h2, dFind_dset_other _ _ _ _ h1]

/-- Witness for `run_query_mutates_params`: on a concrete call, the
caller's `action` entry is overwritten and an unrelated key survives. -/
theorem run_query_mutates_params_witness :
    dFind (run_query_state "AK" "SK" "GetComputers"
      [("limit", "5"), ("action", "old")] "https://h/api" "TS" "2011-08-01").1
      "limit" = some "5" :=
  (run_query_mutates_params "AK" "SK" "GetComputers"
    [("limit", "5"), ("action", "old")] "https://h/api" "TS" "2011-08-01"
    ).2.2.2.2.2.2 "limit" (by decide) (by decide) (by decide) (by decide)
    (by decide) (by decide)

/-! ## Canonicalization and signing (C1)

`sorted(params.items())` compares pairs; the spec says "sort by key".
With distinct keys the two orders agree, which is proved here via
uniqueness of sorted permutations. -/

/-- Transitivity of the pair comparison. -/
theorem pairLe_trans (a b c : String × String) (h1 : pairLe a b)
    (h2 : pairLe b c) : pairLe a c := by
  simp only [pairLe, Bool.or_eq_true, Bool.and_eq_true, decide_eq_true_eq] at h1 h2 ⊢
  rcases h1 with h1 | ⟨he1, hl1⟩
  · rcases h2 with h2 | ⟨he2, _⟩
    · exact Or.inl (lt_trans h1 h2)
    · exact Or.inl (he2 ▸ h1)
  · rcases h2 with h2 | ⟨he2, hl2⟩
    · exact Or.inl (he1 ▸ h2)
    · exact Or.inr ⟨he1.trans he2, le_trans hl1 hl2⟩

/-- Totality of the pair comparison. -/
theorem pairLe_total (a b : String × String) : pairLe a b || pairLe b a := by
  simp only [pairLe, Bool.or_eq_true, Bool.and_eq_true, decide_eq_true_eq]
  rcases lt_trichotomy a.1 b.1 with h | h | h
  · exact Or.inl (Or.inl h)
  · rcases le_total a.2 b.2 with h2 | h2
    · exact Or.inl (Or.inr ⟨h, h2⟩)
    · exact Or.inr (Or.inr ⟨h.symm, h2⟩)
  · exact Or.inr (Or.inl h)

/-- Transitivity of the key-only comparison. -/
theorem keyLe_trans (a b c : String × String) (h1 : keyLe a b)
    (h2 : keyLe b c) : keyLe a c := by
  simp only [keyLe, decide_eq_true_eq] at h1 h2 ⊢
  exact le_trans h1 h2

/-- Totality of the key-only comparison. -/
theorem keyLe_total (a b : String × String) : keyLe a b || keyLe b a := by
  simp only [keyLe, Bool.or_eq_true, decide_eq_true_eq]
  exact le_total a.1 b.1

/-- Every key of `dset d k v` is a key of `d` or is `k`. -/
theorem dset_keys_cases (d : Dict) (k v : String) :
    ∀ x ∈ (dset d k v).map Prod.fst, x ∈ d.map Prod.fst ∨ x = k := by
  induction d with
  | nil =>
    intro x hx
    simp [dset] at hx
    exact Or.inr hx
  | cons kv d ih =>
    intro x hx
    by_cases h : kv.1 = k
    · simp only [dset, if_pos h, List.map_cons, List.mem_cons] at hx
      rcases hx with hx | hx
      · exact Or.inr hx
      · exact Or.inl (by simp [hx])
    · simp only [dset, if_neg h, List.map_cons, List.mem_cons] at hx
      rcases hx with hx | hx
      · exact Or.inl (by simp [hx])
      · rcases ih x hx with h1 | h1
        · exact Or.inl (by simp [h1])
        · exact Or.inr h1

/-- `dset` preserves distinctness of keys. -/
theorem dset_keys_nodup (d : Dict) (k v : String)
    (h : (d.map Prod.fst).Nodup) : ((dset d k v).map Prod.fst).Nodup := by
  induction d with
  | nil => simp [dset]
  | cons kv d ih =>
    by_cases hk : kv.1 = k
    · simp only [dset, if_pos hk]
      simp only [List.map_cons, List.nodup_cons] at h ⊢
      exact ⟨hk ▸ h.1, h.2⟩
    · simp only [dset, if_neg hk, List.map_cons, List.nodup_cons] at h ⊢
      refine ⟨?_, ih h.2⟩
      intro hmem
      rcases dset_keys_cases d k v _ hmem with h1 | h1
      · exact h.1 h1
      · exact hk h1

/-- `dUpdate` preserves distinctness of keys. -/
theorem dUpdate_keys_nodup (d : Dict) (us : List (String × String))
    (h : (d.map Prod.fst).Nodup) : ((dUpdate d us).map Prod.fst).Nodup := by
  induction us generalizing d with
  | nil => exact h
  | cons u us ih => exact ih _ (dset_keys_nodup d u.1 u.2 h)

/-- With distinct keys, sorting pairs by the full tuple comparison (as
`sorted(params.items())` does) coincides with sorting by key alone (as
the spec words it). -/
theorem mergeSort_pairLe_eq_keyLe (l : List (String × String))
    (h : (l.map Prod.fst).Nodup) :
    l.mergeSort pairLe = l.mergeSort keyLe := by
  haveI : IsAntisymm (String × String) (fun a b => a.1 < b.1) :=
    ⟨fun a b h1 h2 => absurd (lt_trans h1 h2) (lt_irrefl _)⟩
  apply List.eq_of_perm_of_sorted (r := fun a b => a.1 < b.1)
    ((List.mergeSort_perm l pairLe).trans (List.mergeSort_perm l keyLe).symm)
  · have hpw := @List.sorted_mergeSort _ pairLe pairLe_trans pairLe_total l
    have hnd : ((l.mergeSort pairLe).map Prod.fst).Nodup :=
      ((List.mergeSort_perm l pairLe).map Prod.fst).nodup_iff.mpr h
    have hne := List.pairwise_map.mp hnd
    refine (hpw.and hne).imp ?_
    intro a b hab
    rcases hab with ⟨h1, h2⟩
    simp only [pairLe, Bool.or_eq_true, Bool.and_eq_true, decide_eq_true_eq] at h1
    rcases h1 with h1 | ⟨he, _⟩
    · exact h1
    · exact absurd he h2
  · have hpw := @List.sorted_mergeSort _ keyLe keyLe_trans keyLe_total l
    have hnd : ((l.mergeSort keyLe).map Prod.fst).Nodup :=
      ((List.mergeSort_perm l keyLe).map Prod.fst).nodup_iff.mpr h
    have hne := List.pairwise_map.mp hnd
    refine (hpw.and hne).imp ?_
    intro a b hab
    rcases hab with ⟨h1, h2⟩
    simp only [keyLe, decide_eq_true_eq] at h1
    exact lt_of_le_of_ne h1 h2

/-- With distinct keys, `run_query`'s canonical query string is the
spec's: sorted by key, quoted, joined as `k=v` with `&`. -/
theorem signedParamsStr_eq_spec (l : Dict) (h : (l.map Prod.fst).Nodup) :
    signedParamsStr l = canonicalQuerySpec l := by
  unfold signedParamsStr canonicalQuerySpec
  rw [mergeSort_pairLe_eq_keyLe l h]

/-- Claim C1: for every flat parameter mapping (distinct keys), secret
key and parsable target URI, `run_query` updates the parameters with
the six fixed fields, sorts all pairs lexicographically by key,
percent-encodes keys and values leaving `~` unescaped, joins them as
`key=value` with `&`; signs the four newline-joined lines `POST`,
`host[:port]` (port only when present in the URI), the path (defaulting
to `/`), and that canonical query string; and appends
`&signature=<percent-encoded base64 HMAC-SHA256>` to the body (the
signature is percent-encoded by `quote` with its default safe set,
which leaves `/` unescaped). -/
theorem run_query_canonical_signing (ak sk act ts ver uri host path0 : String)
    (port : Option Nat) (params : Dict)
    (hnd : (params.map Prod.fst).Nodup)
    (hp : parseUrl uri = some (host, port, path0)) :
    run_query_state ak sk act params uri ts ver =
      (dUpdate params (fixedFields ak act ts ver),
        some { uri := if path0 = "" then uri ++ "/" else uri,
               body := canonicalQuerySpec (dUpdate params (fixedFields ak act ts ver)) ++
                 "&signature=" ++ signatureSpec sk (stringToSignSpec host port path0
                   (canonicalQuerySpec (dUpdate params (fixedFields ak act ts ver)))),
               hostHeader := signedHostStr host port }) := by
  have hfull := dUpdate_keys_nodup params (fixedFields ak act ts ver) hnd
  simp only [run_query_state, hp]
  rw [signedParamsStr_eq_spec _ hfull]
  rfl

/-- Witness for `run_query_canonical_signing` at a concrete call. -/
theorem run_query_canonical_signing_witness :
    ((([("limit", "5")] : Dict).map Prod.fst).Nodup ∧
      parseUrl "https://landscape.canonical.com/api/" =
        some ("landscape.canonical.com", none, "/api/")) ∧
    run_query_state "AK" "SK" "GetComputers" [("limit", "5")]
        "https://landscape.canonical.com/api/" "TS" "2011-08-01" =
      (dUpdate [("limit", "5")] (fixedFields "AK" "GetComputers" "TS" "2011-08-01"),
        some { uri := "https://landscape.canonical.com/api/",
               body := canonicalQuerySpec (dUpdate [("limit", "5")]
                   (fixedFields "AK" "GetComputers" "TS" "2011-08-01")) ++
                 "&signature=" ++ signatureSpec "SK"
                   (stringToSignSpec "landscape.canonical.com" none "/api/"
                     (canonicalQuerySpec (dUpdate [("limit", "5")]
                       (fixedFields "AK" "GetComputers" "TS" "2011-08-01")))),
               hostHeader := signedHostStr "landscape.canonical.com" none }) :=
  ⟨⟨by decide, by decide⟩,
    by
      have h := run_query_canonical_signing "AK" "SK" "GetComputers" "TS"
        "2011-08-01" "https://landscape.canonical.com/api/"
        "landscape.canonical.com" "/api/" none [("limit", "5")]
        (by decide) (by decide)
      simpa using h⟩

/-! ## Error registry (C8) -/

/-- A name is absent from the registry iff `lookup_error` misses. -/
theorem lookup_error_none_iff (reg : Registry) (n : String) :
    lookup_error reg n = none ↔ n ∉ reg.map Prod.fst := by
  unfold lookup_error
  rw [Option.map_eq_none', List.find?_eq_none]
  constructor
  · intro h hmem
    rcases List.mem_map.mp hmem with ⟨kv, hkv, he⟩
    have h2 := h kv hkv
    simp only [decide_eq_true_eq] at h2
    exact h2 he
  · intro h kv hkv
    simp only [decide_eq_true_eq]
    intro he
    exact h (List.mem_map.mpr ⟨kv, hkv, he⟩)

/-- Entries already present are still found after appending. -/
theorem lookup_error_append_left (reg l : Registry) (n : String)
    (h : (lookup_error reg n).isSome) :
    lookup_error (reg ++ l) n = lookup_error reg n := by
  unfold lookup_error at h ⊢
  rw [List.find?_append]
  cases ho : List.find? (fun kv => kv.1 = n) reg with
  | none => rw [ho] at h; simp at h
  | some kv => rfl

/-- A freshly appended entry is found when the name was absent. -/
theorem lookup_error_append_self (reg : Registry) (n : String) (cls : Nat)
    (h : lookup_error reg n = none) :
    lookup_error (reg ++ [(n, cls)]) n = some cls := by
  unfold lookup_error at h ⊢
  rw [List.find?_append]
  have hnone : List.find? (fun kv => kv.1 = n) reg = none := by
    cases ho : List.find? (fun kv => kv.1 = n) reg with
    | none => rfl
    | some kv => rw [ho] at h; simp at h
  rw [hnone]
  simp [List.find?]

/-- `_build_exceptions`' fold keeps registry keys distinct. -/
theorem buildFold_keys_nodup (codes : List String) :
    ∀ (st : Registry × Nat), (st.1.map Prod.fst).Nodup →
      (((codes.foldl buildStep st).1).map Prod.fst).Nodup := by
  induction codes with
  | nil => intro st h; exact h
  | cons c cs ih =>
    intro st h
    rw [List.foldl_cons]
    apply ih
    cases hl : lookup_error st.1 (_get_error_code_name c) with
    | some v => simpa [buildStep, hl] using h
    | none =>
      have hb : (buildStep st c).1 = st.1 ++ [(_get_error_code_name c, st.2)] := by
        simp [buildStep, hl, add_error]
      have habs : _get_error_code_name c ∉ st.1.map Prod.fst :=
        (lookup_error_none_iff _ _).mp hl
      rw [hb]
      simp only [List.map_append, List.map_cons, List.map_nil, List.nodup_append]
      refine ⟨h, List.nodup_singleton _, ?_⟩
      intro a ha hb2
      rw [List.mem_singleton] at hb2
      exact habs (hb2 ▸ ha)

/-- The fold of `_build_exceptions` never removes a registered name. -/
theorem buildFold_lookup_mono (codes : List String) :
    ∀ (st : Registry × Nat) (n : String), (lookup_error st.1 n).isSome →
      (lookup_error ((codes.foldl buildStep st).1) n).isSome := by
  induction codes with
  | nil => intro st n h; exact h
  | cons c cs ih =>
    intro st n h
    rw [List.foldl_cons]
    apply ih
    cases hl : lookup_error st.1 (_get_error_code_name c) with
    | some v => simpa [buildStep, hl] using h
    | none =>
      have hb : (buildStep st c).1 = st.1 ++ [(_get_error_code_name c, st.2)] := by
        simp [buildStep, hl, add_error]
      rw [hb, lookup_error_append_left _ _ _ h]
      exact h

/-- Every code of the list ends up registered under its normalized
name. -/
theorem buildFold_mem (codes : List String) :
    ∀ (st : Registry × Nat) (c : String), c ∈ codes →
      (lookup_error ((codes.foldl buildStep st).1) (_get_error_code_name c)).isSome := by
  induction codes with
  | nil => intro st c h; cases h
  | cons c0 cs ih =>
    intro st c h
    rcases List.mem_cons.mp h with he | hm
    · subst he
      rw [List.foldl_cons]
      apply buildFold_lookup_mono
      cases hl : lookup_error st.1 (_get_error_code_name c) with
      | some v => simp [buildStep, hl]
      | none =>
        have hb : (buildStep st c).1 = st.1 ++ [(_get_error_code_name c, st.2)] := by
          simp [buildStep, hl, add_error]
        rw [hb, lookup_error_append_self _ _ _ hl]
        rfl
    · rw [List.foldl_cons]
      exact ih _ c hm

/-- Claim C8: building the error registry de-duplicates: the registry's
normalized names are distinct (exactly one exception class per
normalized code, so `lookup_error`, a function of the registry and the
name, returns that one class object for every occurrence), and every
code declared by any action/version is registered under its normalized
name. -/
theorem build_exceptions_dedup (schema : SchemaErrors) :
    ((_build_exceptions schema).map Prod.fst).Nodup ∧
    ∀ c, c ∈ schemaCodes schema →
      (lookup_error (_build_exceptions schema) (_get_error_code_name c)).isSome := by
  constructor
  · exact buildFold_keys_nodup _ _ (by simp)
  · intro c hc
    exact buildFold_mem _ _ c hc

/-- Witness for `build_exceptions_dedup`: two actions declaring the
same code produce one entry, found by `lookup_error`. -/
theorem build_exceptions_dedup_witness :
    ("UnknownComputer" ∈ schemaCodes
      [("A", [("2011-08-01", ["UnknownComputer"])]),
        ("B", [("2011-08-01", ["UnknownComputer", "Invalid"])])]) ∧
    (lookup_error (_build_exceptions
      [("A", [("2011-08-01", ["UnknownComputer"])]),
        ("B", [("2011-08-01", ["UnknownComputer", "Invalid"])])])
      (_get_error_code_name "UnknownComputer")).isSome :=
  ⟨by decide,
    (build_exceptions_dedup
      [("A", [("2011-08-01", ["UnknownComputer"])]),
        ("B", [("2011-08-01", ["UnknownComputer", "Invalid"])])]).2
      "UnknownComputer" (by decide)⟩

/-! ## Error dispatch (C6) and the `HTTPError` constructor (C7) -/

/-- Claim C6 (amended): a non-2xx response carrying an error code whose
normalized name is not in the registry makes `run_query` re-raise the
original generic `HTTPError` — which carries the status, body and
parsed code, but is NOT an instance of `APIError`, the registry's base
class — and no other exception escapes.  (The original claim, that the
generic typed API error is raised, fails: see the counterexample.) -/
theorem unknown_code_reraises_httperror (registry : Registry) (status : Nat)
    (body : String) (e : HTTPErrorV) (c : String)
    (hinit : HTTPError_init status (some body) none = Except.ok e)
    (hc : e.errorCode = some (.jstr c))
    (hunk : lookup_error registry (_get_error_code_name c) = none) :
    run_query_error_dispatch registry status body =
      PyExc.raisedHTTP PyClassK.httpErrorCls e ∧
    (run_query_error_dispatch registry status body).isAPIError = false := by
  have h : run_query_error_dispatch registry status body =
      PyExc.raisedHTTP PyClassK.httpErrorCls e := by
    simp only [run_query_error_dispatch, hinit, hc, hunk]
  exact ⟨h, by rw [h]; rfl⟩

/-- Witness for `unknown_code_reraises_httperror` on a concrete
registry and body. -/
theorem unknown_code_reraises_httperror_witness :
    (HTTPError_init 400 (some "\x7b\"error\": \"Nope\", \"message\": \"m\"\x7d") none =
      Except.ok ⟨400, some "\x7b\"error\": \"Nope\", \"message\": \"m\"\x7d",
        some [("error", .jstr "Nope"), ("message", .jstr "m")],
        some (.jstr "Nope"), some (.jstr "m")⟩ ∧
      lookup_error [("BoomError", 0)] (_get_error_code_name "Nope") = none) ∧
    (run_query_error_dispatch [("BoomError", 0)] 400
        "\x7b\"error\": \"Nope\", \"message\": \"m\"\x7d" =
      PyExc.raisedHTTP PyClassK.httpErrorCls
        ⟨400, some "\x7b\"error\": \"Nope\", \"message\": \"m\"\x7d",
          some [("error", .jstr "Nope"), ("message", .jstr "m")],
          some (.jstr "Nope"), some (.jstr "m")⟩ ∧
      (run_query_error_dispatch [("BoomError", 0)] 400
        "\x7b\"error\": \"Nope\", \"message\": \"m\"\x7d").isAPIError = false) :=
  ⟨⟨by decide, by decide⟩,
    unknown_code_reraises_httperror [("BoomError", 0)] 400
      "\x7b\"error\": \"Nope\", \"message\": \"m\"\x7d" _ "Nope"
      (by decide) (by decide) (by decide)⟩

/-- Claim C6, counterexample: with error code `TotallyUnknownCode`
absent from the registry, the exception `run_query` raises is the plain
`HTTPError`, not an instance of the generic API error class. -/
theorem unknown_code_not_apierror_counterexample :
    (run_query_error_dispatch
      (_build_exceptions [("A", [("2011-08-01", ["Boom"])])]) 400
      "\x7b\"error\": \"TotallyUnknownCode\", \"message\": \"m\"\x7d").isAPIError
        = false ∧
    run_query_error_dispatch
      (_build_exceptions [("A", [("2011-08-01", ["Boom"])])]) 400
      "\x7b\"error\": \"TotallyUnknownCode\", \"message\": \"m\"\x7d" =
      PyExc.raisedHTTP PyClassK.httpErrorCls
        ⟨400, some "\x7b\"error\": \"TotallyUnknownCode\", \"message\": \"m\"\x7d",
          some [("error", .jstr "TotallyUnknownCode"), ("message", .jstr "m")],
          some (.jstr "TotallyUnknownCode"), some (.jstr "m")⟩ := by
  constructor <;> decide

/-- Claim C7 (code bug): `HTTPError.__init__` itself crashes on a
non-2xx body that starts with `{` but is not a JSON object with
`error`/`message` keys — a `JSONDecodeError` escapes for `"{oops"` and
a `KeyError` for `{"foo": "bar"}` — instead of producing the generic
HTTP error carrying status and raw text; a body not starting with `{`
does produce it. -/
theorem httperror_init_crash_on_unparseable :
    HTTPError_init 500 (some "\x7boops") none =
      Except.error PyExc.jsonDecodeError ∧
    HTTPError_init 500 (some "\x7b\"foo\": \"bar\"\x7d") none =
      Except.error (PyExc.keyError "error") ∧
    HTTPError_init 404 (some "not found") none =
      Except.ok ⟨404, some "not found", none, none, none⟩ := by
  refine ⟨by decide, by decide, by decide⟩

/-! ## Encoder lemmas (C3, C4, C5) -/

mutual

/-- Python `==` is reflexive on the modelled values. -/
theorem pyEq_refl : ∀ (v : Value), pyEq v v = true
  | .vnone => rfl
  | .vint n => by simp [pyEq]
  | .vstr s => by simp [pyEq]
  | .vbool b => by simp [pyEq]
  | .vlist xs => by
    rw [pyEq]
    exact pyEqList_refl xs
  | .vdict kvs => by
    rw [pyEq]
    exact pyEqPairs_refl kvs

/-- Pointwise reflexivity on lists. -/
theorem pyEqList_refl : ∀ (xs : List Value), pyEqList xs xs = true
  | [] => rfl
  | x :: xs => by
    rw [pyEqList, pyEq_refl x, pyEqList_refl xs]
    rfl

/-- Pointwise reflexivity on pair lists. -/
theorem pyEqPairs_refl : ∀ (kvs : List (Value × Value)), pyEqPairs kvs kvs = true
  | [] => rfl
  | (k, v) :: kvs => by
    rw [pyEqPairs, pyEq_refl k, pyEq_refl v, pyEqPairs_refl kvs]
    rfl

end

/-- Claim C3: default suppression.  For every optional parameter:
a supplied value exactly equal to the declared default yields no key;
omitting the parameter yields no key; and a (scalar) value that the
code's equality distinguishes from the default yields exactly one key
(at the parameter's name). -/
theorem encode_default_suppression (p : PSpec) (name : String) (v : Value)
    (hopt : p.optional = true) :
    (v = p.dflt → _encode_argument p name v = Except.ok []) ∧
    _encode_struct_fields [(name, p)] [] "" = Except.ok [] ∧
    (p.ty.isScalar = true → pyEq v p.dflt = false →
      ∃ s, _encode_argument p name v = Except.ok [(name, s)]) := by
  obtain ⟨ty, opt, dflt⟩ := p
  simp only [PSpec.optional] at hopt
  subst hopt
  refine ⟨?_, ?_, ?_⟩
  · intro hv
    simp only [PSpec.dflt] at hv
    subst hv
    rw [_encode_argument.eq_def]
    simp [PSpec.optional, PSpec.dflt, pyEq_refl]
  · simp only [_encode_struct_fields, encodeFieldsGo]
    rfl
  · intro hs hne
    simp only [PSpec.dflt] at hne
    simp only [PSpec.ty, PTy.isScalar] at hs
    cases ty <;> simp_all [_encode_argument, PSpec.optional, PSpec.dflt]

/-- Witness for `encode_default_suppression` on an optional integer
parameter with default `5` and supplied value `7`. -/
theorem encode_default_suppression_witness :
    (PSpec.mk .integer true (.vint 5)).optional = true ∧
    ((Value.vint 7 = (PSpec.mk .integer true (.vint 5)).dflt →
        _encode_argument (.mk .integer true (.vint 5)) "n" (.vint 7) = Except.ok []) ∧
      _encode_struct_fields [("n", PSpec.mk .integer true (.vint 5))] [] "" =
        Except.ok [] ∧
      ((PSpec.mk .integer true (.vint 5)).ty.isScalar = true →
        pyEq (.vint 7) (PSpec.mk .integer true (.vint 5)).dflt = false →
        ∃ s, _encode_argument (.mk .integer true (.vint 5)) "n" (.vint 7) =
          Except.ok [("n", s)])) :=
  ⟨rfl, encode_default_suppression (.mk .integer true (.vint 5)) "n" (.vint 7) rfl⟩

/-- Removing one argument cannot make an absent name present. -/
theorem lookupArg_removeArg_none (args : List (String × Value)) (k n : String)
    (h : lookupArg args n = none) : lookupArg (removeArg args k) n = none := by
  unfold lookupArg at h ⊢
  unfold removeArg
  rw [Option.map_eq_none'] at h ⊢
  rw [List.find?_eq_none] at h ⊢
  intro x hx
  exact h x ((List.eraseP_sublist _).subset hx)

/-- The field loop leaves an absent argument name absent. -/
theorem encodeFieldsGo_absent (fields : List (String × PSpec)) :
    ∀ (args : List (String × Value)) (pfx : String) (res : Dict)
      (st : Dict × List (String × Value)) (n : String),
      encodeFieldsGo fields args pfx res = Except.ok st →
      lookupArg args n = none → lookupArg st.2 n = none := by
  induction fields with
  | nil =>
    intro args pfx res st n h habs
    simp only [encodeFieldsGo] at h
    cases h
    exact habs
  | cons f rest ih =>
    rcases f with ⟨pname, pdesc⟩
    intro args pfx res st n h habs
    cases hl : lookupArg args pname with
    | none =>
      rw [encodeFieldsGo, hl] at h
      dsimp only [] at h
      by_cases ho : pdesc.optional
      · rw [if_neg (not_not_intro ho)] at h
        exact ih args pfx res st n h habs
      · rw [if_pos ho] at h
        exact absurd h (by simp)
    | some v =>
      rw [encodeFieldsGo, hl] at h
      dsimp only [] at h
      cases he : _encode_argument pdesc (pfx ++ pname) v with
      | error e =>
        rw [he] at h
        simp at h
      | ok enc =>
        rw [he] at h
        dsimp only [] at h
        exact ih _ pfx _ st n h (lookupArg_removeArg_none args pname n habs)

/-- A required field absent from the arguments makes the field loop
fail (with some exception: an earlier field may fail first). -/
theorem encodeFieldsGo_missing_isError (fields : List (String × PSpec)) :
    ∀ (args : List (String × Value)) (pfx : String) (res : Dict)
      (name : String) (p : PSpec),
      (name, p) ∈ fields → p.optional = false → lookupArg args name = none →
      ∃ e, encodeFieldsGo fields args pfx res = Except.error e := by
  induction fields with
  | nil => intro args pfx res name p hm; cases hm
  | cons f rest ih =>
    rcases f with ⟨pname, pdesc⟩
    intro args pfx res name p hm hreq habs
    rcases List.mem_cons.mp hm with he | hm'
    · cases he
      refine ⟨PyExc.typeError ("Missing parameter " ++ pname), ?_⟩
      rw [encodeFieldsGo, habs]
      dsimp only []
      rw [if_pos (by simp [hreq])]
    · cases hl : lookupArg args pname with
      | none =>
        by_cases ho : pdesc.optional
        · rcases ih args pfx res name p hm' hreq habs with ⟨e, he⟩
          refine ⟨e, ?_⟩
          rw [encodeFieldsGo, hl]
          dsimp only []
          rw [if_neg (not_not_intro ho)]
          exact he
        · refine ⟨PyExc.typeError ("Missing parameter " ++ pname), ?_⟩
          rw [encodeFieldsGo, hl]
          dsimp only []
          rw [if_pos ho]
      | some v =>
        cases hx : _encode_argument pdesc (pfx ++ pname) v with
        | error e =>
          refine ⟨e, ?_⟩
          rw [encodeFieldsGo, hl]
          dsimp only []
          rw [hx]
        | ok enc =>
          rcases ih (removeArg args pname) pfx (dUpdate res enc) name p hm' hreq
            (lookupArg_removeArg_none args pname name habs) with ⟨e, he⟩
          refine ⟨e, ?_⟩
          rw [encodeFieldsGo, hl]
          dsimp only []
          rw [hx]
          exact he

/-- Processing a field list splits at an append. -/
theorem encodeFieldsGo_append (f1 f2 : List (String × PSpec)) :
    ∀ (args : List (String × Value)) (pfx : String) (res : Dict),
    encodeFieldsGo (f1 ++ f2) args pfx res =
      match encodeFieldsGo f1 args pfx res with
      | .error e => .error e
      | .ok st => encodeFieldsGo f2 st.2 pfx st.1 := by
  induction f1 with
  | nil => intro args pfx res; simp [encodeFieldsGo]
  | cons f rest ih =>
    rcases f with ⟨pname, pdesc⟩
    intro args pfx res
    rw [List.cons_append, encodeFieldsGo, encodeFieldsGo]
    cases hl : lookupArg args pname with
    | none =>
      dsimp only []
      by_cases ho : pdesc.optional
      · rw [if_neg (not_not_intro ho), if_neg (not_not_intro ho)]
        exact ih args pfx res
      · rw [if_pos ho, if_pos ho]
    | some v =>
      dsimp only []
      cases hx : _encode_argument pdesc (pfx ++ pname) v with
      | error e => rfl
      | ok enc =>
        dsimp only []
        exact ih _ pfx _

/-- Claim C4 (amended): a call omitting a required declared parameter
always fails before the transport is invoked (no request is built), and
the failure is `TypeError("Missing parameter <name>")` whenever the
fields declared before it process without raising — the client has no
`MissingParameterError`; that name exists only as a registry class for
server-reported errors. -/
theorem call_missing_required (pre post : List (String × PSpec)) (name : String)
    (p : PSpec) (kwargs : List (String × Value))
    (ak sk act uri ts ver : String)
    (hreq : p.optional = false) (habs : lookupArg kwargs name = none) :
    (∃ e, API_call (pre ++ (name, p) :: post) kwargs ak sk act uri ts ver =
      Except.error e) ∧
    ∀ st, encodeFieldsGo pre kwargs "" [] = Except.ok st →
      API_call (pre ++ (name, p) :: post) kwargs ak sk act uri ts ver =
        Except.error (PyExc.typeError ("Missing parameter " ++ name)) := by
  constructor
  · rcases encodeFieldsGo_missing_isError (pre ++ (name, p) :: post) kwargs "" []
      name p (by simp) hreq habs with ⟨e, he⟩
    refine ⟨e, ?_⟩
    simp [API_call, _encode_struct_fields, he]
  · intro st hst
    have habs' : lookupArg st.2 name = none :=
      encodeFieldsGo_absent pre kwargs "" [] st name hst habs
    have hrun : encodeFieldsGo (pre ++ (name, p) :: post) kwargs "" [] =
        Except.error (PyExc.typeError ("Missing parameter " ++ name)) := by
      rw [encodeFieldsGo_append, hst]
      dsimp only []
      rw [encodeFieldsGo, habs']
      dsimp only []
      rw [if_pos (by simp [hreq])]
    simp [API_call, _encode_struct_fields, hrun]

/-- Witness for `call_missing_required`: calling an action whose only
declared parameter `name` is required, with no arguments. -/
theorem call_missing_required_witness :
    ((PSpec.mk .raw_string false .vnone).optional = false ∧
      lookupArg [] "name" = none) ∧
    API_call ([] ++ ("name", PSpec.mk .raw_string false .vnone) :: []) []
        "AK" "SK" "CreateAccessGroup" "https://h/api" "TS" "2011-08-01" =
      Except.error (PyExc.typeError ("Missing parameter " ++ "name")) :=
  ⟨⟨rfl, rfl⟩,
    (call_missing_required [] [] "name" (PSpec.mk .raw_string false .vnone) []
      "AK" "SK" "CreateAccessGroup" "https://h/api" "TS" "2011-08-01"
      rfl rfl).2 ([], []) (by simp [encodeFieldsGo])⟩

/-- Claim C4, counterexample to the exception type: the missing-required
failure is a `TypeError`, whose class name is not
`MissingParameterError`. -/
theorem missing_param_not_missing_parameter_error :
    API_call [("name", PSpec.mk .raw_string false .vnone)] [] "AK" "SK"
        "CreateAccessGroup" "https://h/api" "TS" "2011-08-01" =
      Except.error (PyExc.typeError "Missing parameter name") ∧
    (PyExc.typeError "Missing parameter name").className ≠
      "MissingParameterError" := by
  constructor
  · have h : encodeFieldsGo [("name", PSpec.mk .raw_string false .vnone)] [] "" [] =
        Except.error (PyExc.typeError "Missing parameter name") := by
      rw [encodeFieldsGo.eq_def]
      rfl
    simp [API_call, _encode_struct_fields, h]
  · decide

/-- Claim C5 (amended): a string supplied for a list parameter is split
at every comma by `str.split` — the `\,` sequence is NOT treated as an
escape — each piece is whitespace-stripped, and the pieces are then
encoded exactly like a native list, at the 1-indexed paths `<name>.1`,
`<name>.2`, ...; in particular encoding `["x","y"]` under `"tags"`
yields `{"tags.1": "x", "tags.2": "y"}`. -/
theorem encode_list_split_no_escape (item : PSpec) (d : Value) (name s : String) :
    _encode_argument (.mk (.plist item) false d) name (.vstr s) =
      _encode_argument (.mk (.plist item) false d) name
        (.vlist ((pySplitChar ',' s.data).map
          (fun cs => Value.vstr (String.mk (pyStrip cs))))) ∧
    _encode_argument (.mk (.plist (.mk .raw_string false .vnone)) false .vnone)
        "tags" (.vlist [.vstr "x", .vstr "y"]) =
      Except.ok [("tags.1", "x"), ("tags.2", "y")] := by
  constructor
  · rw [_encode_argument, _encode_argument]
    simp [_encode_list, PSpec.optional]
  · rw [_encode_argument]
    simp [_encode_list, encodeSeq, _encode_argument, PSpec.optional, PSpec.dflt,
      pyEq, dUpdate, dset, dFind, pyStr]
    decide

/-- Claim C5, counterexample to the escape handling: encoding the
string `a\,b` under a list-of-raw-string parameter `tags` splits at the
comma regardless of the backslash, yielding items `a\` and `b` — not
the single item `a,b` the claim requires. -/
theorem encode_list_no_escape_counterexample :
    _encode_argument (.mk (.plist (.mk .raw_string false .vnone)) false .vnone)
        "tags" (.vstr "a\\,b") =
      Except.ok [("tags.1", "a\\"), ("tags.2", "b")] ∧
    _encode_argument (.mk (.plist (.mk .raw_string false .vnone)) false .vnone)
        "tags" (.vstr "a\\,b") ≠
      Except.ok [("tags.1", "a,b")] := by
  have h : _encode_argument (.mk (.plist (.mk .raw_string false .vnone)) false .vnone)
      "tags" (.vstr "a\\,b") =
      Except.ok [("tags.1", "a\\"), ("tags.2", "b")] := by
    rw [_encode_argument]
    simp [_encode_list, encodeSeq, _encode_argument, PSpec.optional, PSpec.dflt,
      pyEq, dUpdate, dset, dFind, pyStr, pySplitChar, pyStrip]
    decide
  exact ⟨h, by rw [h]; decide⟩

end Landscape
